import Mathlib

/-!
Shallow embedding of the `progressbar.py` library (widgets, `ProgressBar`,
`MultiStageProgressBar`) for checking the natural-language specification
against the code.  Numbers are modelled over `ℚ` (the Python code mixes ints
and floats; all claim-relevant arithmetic is exact), terminal widths over `ℤ`,
the output sink as the list of strings written, and the clock as an explicit
`now` argument.  Python `assert` statements inside `update` are modelled as an
`Except` error (the spec calls this `InvalidProgressValue`); because the model
is purely functional, a call that returns `.error` produces no new state and
no write, exactly as the Python exception raised before any mutation.
-/

namespace Progressbar

deriving instance DecidableEq for Except

/-- View of the tracker state that widgets receive: the attributes of the
calling `ProgressBar` that the built-in widgets read (`maxval`, `currval`,
`finished`, `seconds_elapsed`, and `percentage()` derived from them). -/
structure WView where
  maxval : ℚ
  currval : ℚ
  finished : Bool
  seconds_elapsed : ℚ
deriving DecidableEq

/-- The three widget shapes of the source: a plain string shows itself, a
`ProgressBarWidget` (dynamic) returns a string from the tracker state, and a
`ProgressBarWidgetHFill` (fill) additionally receives the width it must fill
(an `ℤ`, since the Python width expression can in principle be negative). -/
inductive Widget where
  | literal (s : String)
  | dynamic (f : WView → String)
  | fill (f : WView → ℤ → String)

/-- Python 2 `str.ljust(width)`: pad on the right with spaces up to `width`;
never truncates.  A non-positive or smaller-than-length width is a no-op. -/
def ljust (str : String) (width : ℤ) : String :=
  str ++ String.mk (List.replicate (width - (str.length : ℤ)).toNat ' ')

/-- Python `'%<w>d'`-style left space padding used by `'%3d%%'`. -/
def pad_left (str : String) (width : ℕ) : String :=
  String.mk (List.replicate (width - str.length) ' ') ++ str

/-- Python `int()` applied to a rational: truncation toward zero. -/
def py_int (q : ℚ) : ℤ :=
  if 0 ≤ q then ⌊q⌋ else ⌈q⌉

/-- Python 2 string repetition `s * n` (empty for non-positive `n`). -/
def str_repeat (s : String) (n : ℤ) : String :=
  String.join (List.replicate n.toNat s)

/-- The `percentage()` computation as seen from a widget view:
`currval * 100.0 / maxval`. -/
def wpercentage (v : WView) : ℚ :=
  v.currval * 100 / v.maxval

/-- The `Percentage` widget: `'%3d%%' % pbar.percentage()` (C `%d` truncates
the float toward zero and pads to at least 3 characters). -/
def percentage_widget : Widget :=
  .dynamic fun v => pad_left (toString (py_int (wpercentage v))) 3 ++ "%"

/-- The `Bar` fill widget with marker/left/right strings:
`marked_width = int(percent * cwidth / 100)` where
`cwidth = width - len(left) - len(right)`, rendered as
`left + (marker * marked_width).ljust(cwidth) + right`. -/
def bar_widget (marker left right : String) : Widget :=
  .fill fun v width =>
    let cwidth : ℤ := width - (left.length : ℤ) - (right.length : ℤ)
    let marked_width := py_int (wpercentage v * cwidth / 100)
    left ++ ljust (str_repeat marker marked_width) cwidth ++ right

/-- The `Counter` widget output: `"%d / %d" % (currval, maxval)` (its
internal `maxval`/`currval` fields only mirror the tracker and do not affect
the returned string). -/
def counter_widget : Widget :=
  .dynamic fun v => toString (py_int v.currval) ++ " / " ++ toString (py_int v.maxval)

/-- Model of `time.strftime('%H:%M:%S', time.gmtime(seconds))`: the seconds
are truncated to an integer and rendered modulo one day as zero-padded
`HH:MM:SS` (for negative instants `gmtime` lands in 1969 and the time-of-day
fields equal the nonnegative remainder, which `Int.emod` gives directly). -/
def format_time (q : ℚ) : String :=
  let t : ℤ := py_int q % 86400
  let pad2 : ℤ → String := fun i => if i < 10 then "0" ++ toString i else toString i
  pad2 (t / 3600) ++ ":" ++ pad2 (t % 3600 / 60) ++ ":" ++ pad2 (t % 60)

/-- The `ETA` widget: placeholder before the first value, total elapsed time
once finished, otherwise `elapsed * maxval / currval - elapsed`. -/
def eta_widget : Widget :=
  .dynamic fun v =>
    if v.currval = 0 then "ETA:    --:--:--"
    else if v.finished then "Time: " ++ format_time v.seconds_elapsed
    else "ETA:    " ++ format_time (v.seconds_elapsed * v.maxval / v.currval - v.seconds_elapsed)

/-- `default_widgets = [Percentage(), ' ', Bar(), ' ', Counter(), ' ', ETA()]`. -/
def default_widgets : List Widget :=
  [percentage_widget, .literal " ", bar_widget "#" "|" "|", .literal " ",
   counter_widget, .literal " ", eta_widget]

/-- State of a `ProgressBar` object.  `term_width` is fixed at construction in
this model (the asynchronous resize collaborator is external to the embedded
code); the output stream `fd` is modelled by returning written strings. -/
structure PBState where
  maxval : ℚ
  widgets : List Widget
  term_width : ℤ
  currval : ℚ
  finished : Bool
  prev_percentage : ℚ
  start_time : Option ℚ
  seconds_elapsed : ℚ

/-- `ProgressBar.__init__`: the widget list gets the title prepended when the
title is truthy (a non-empty string); `currval = 0`, `finished = False`,
`prev_percentage = -1`, `start_time = None`, `seconds_elapsed = 0`.  The
source also asserts `maxval > 0`; that precondition appears as a hypothesis
on the theorems that need it. -/
def pb_init (maxval : ℚ) (widgets : List Widget) (term_width : ℤ) (title : String) : PBState :=
  { maxval := maxval
    widgets := if title = "" then widgets else .literal title :: widgets
    term_width := term_width
    currval := 0
    finished := false
    prev_percentage := -1
    start_time := none
    seconds_elapsed := 0 }

/-- `ProgressBar.percentage()`: `currval * 100.0 / maxval`. -/
def percentage (s : PBState) : ℚ :=
  s.currval * 100 / s.maxval

/-- View of the state passed to widget update functions. -/
def wview (s : PBState) : WView :=
  ⟨s.maxval, s.currval, s.finished, s.seconds_elapsed⟩

/-- Width contributed to `currwidth` in the first pass of `_format_widgets`:
literal strings and dynamic widget outputs count, fill widgets do not. -/
def widget_width (s : PBState) (w : Widget) : ℕ :=
  match w with
  | .literal str => str.length
  | .dynamic f => (f (wview s)).length
  | .fill _ => 0

/-- The `currwidth` accumulated by the first pass of `_format_widgets`. -/
def fixed_width (s : PBState) : ℕ :=
  (s.widgets.map (widget_width s)).sum

/-- Test used to recognize fill widgets. -/
def is_fill (w : Widget) : Bool :=
  match w with
  | .fill _ => true
  | _ => false

/-- `num_hfill`: the number of `ProgressBarWidgetHFill` widgets. -/
def num_hfill (s : PBState) : ℕ :=
  (s.widgets.filter is_fill).length

/-- The width handed to every fill widget:
`(self.term_width - currwidth) / num_hfill` with Python 2 integer division,
i.e. floor division (`Int.fdiv`). -/
def hfill_width (s : PBState) : ℤ :=
  Int.fdiv (s.term_width - (fixed_width s : ℤ)) (num_hfill s)

/-- One entry of the list `r` built by `_format_widgets`: literals verbatim,
dynamic widgets applied to the tracker, fill widgets applied to the tracker
and the shared fill width. -/
def render_widget (s : PBState) (w : Widget) : String :=
  match w with
  | .literal str => str
  | .dynamic f => f (wview s)
  | .fill f => f (wview s) (hfill_width s)

/-- `_format_widgets`: the list of rendered widget strings, in widget order. -/
def format_widgets (s : PBState) : List String :=
  s.widgets.map (render_widget s)

/-- `_format_line`: `''.join(self._format_widgets()).ljust(self.term_width)`. -/
def format_line (s : PBState) : String :=
  ljust (String.join (format_widgets s)) s.term_width

/-- `_need_update`: `self.percentage() != self.prev_percentage`. -/
def need_update (s : PBState) : Bool :=
  decide (percentage s ≠ s.prev_percentage)

/-- Error raised by the `assert` statements of `_update` (the spec's
`InvalidProgressValue`). -/
inductive PBErr where
  | invalidProgressValue
deriving DecidableEq

/-- The mutation performed by `_update` after its range checks pass: set
`currval = value`; then, unless the percentage is unchanged or the bar is
already finished (`if not self._need_update() or self.finished: return`),
set the timing fields, `prev_percentage = percentage()`, and
`finished = (currval == maxval)`.  `not self.start_time` is Python
falsiness: `None` and `0.0` both count as unset. -/
def pb_advance_state (s : PBState) (value now : ℚ) : PBState :=
  let s1 := { s with currval := value }
  if need_update s1 = false ∨ s1.finished = true then s1
  else
    let st := if s1.start_time.getD 0 = 0 then some now else s1.start_time
    { s1 with
      start_time := st
      seconds_elapsed := now - st.getD 0
      prev_percentage := percentage s1
      finished := decide (value = s.maxval) }

/-- `ProgressBar._update(value)`: default the value to `currval + 1`, check
`0 <= value` and `value <= maxval` (the two asserts raise before any field
is mutated), then perform the `pb_advance_state` mutation. -/
def pb_update_ (s : PBState) (value? : Option ℚ) (now : ℚ) : Except PBErr PBState :=
  let value := value?.getD (s.currval + 1)
  if 0 ≤ value then
    if value ≤ s.maxval then .ok (pb_advance_state s value now)
    else .error .invalidProgressValue
  else .error .invalidProgressValue

/-- `ProgressBar.update(value)`: run `_update`, then write the formatted line
terminated by a newline when finished, else a carriage return.  The write
happens on every successful call. -/
def pb_update (s : PBState) (value? : Option ℚ) (now : ℚ) :
    Except PBErr (PBState × List String) :=
  match pb_update_ s value? now with
  | .error e => .error e
  | .ok s' => .ok (s', [format_line s' ++ (if s'.finished then "\n" else "\r")])

/-- `ProgressBar.start()`: `self.update(0)` (the resize-signal arming is an
external collaborator and not part of the embedded state). -/
def pb_start (s : PBState) (now : ℚ) : Except PBErr (PBState × List String) :=
  pb_update s (some 0) now

/-- `ProgressBar.finish()`: if not finished, set `finished = True` and call
`update(maxval)`; otherwise do nothing (the signal disarm is external). -/
def pb_finish (s : PBState) (now : ℚ) : Except PBErr (PBState × List String) :=
  if s.finished then .ok (s, [])
  else pb_update { s with finished := true } (some s.maxval) now

/-- One public operation on a `ProgressBar`, with the clock reading it sees. -/
inductive PBOp where
  | start (now : ℚ)
  | update (value? : Option ℚ) (now : ℚ)
  | finish (now : ℚ)

/-- Dispatch one operation. -/
def pb_step (s : PBState) : PBOp → Except PBErr (PBState × List String)
  | .start now => pb_start s now
  | .update value? now => pb_update s value? now
  | .finish now => pb_finish s now

/-- Run a sequence of operations, accumulating everything written to the
output sink; an exception aborts the run as in Python. -/
def pb_run (s : PBState) : List PBOp → Except PBErr (PBState × List String)
  | [] => .ok (s, [])
  | op :: ops =>
    match pb_step s op with
    | .error e => .error e
    | .ok (s1, w1) =>
      match pb_run s1 ops with
      | .error e => .error e
      | .ok (s2, w2) => .ok (s2, w1 ++ w2)

/-- State of a `MultiStageProgressBar` object.  `term_width` is again the
construction-time terminal width (the resize collaborator is external). -/
structure MSState where
  maxvals : List ℚ
  num_stages : ℕ
  finished : Bool
  titles : List String
  term_width : ℤ
  stage_widths : List ℤ
  pbars : List PBState
  cascade : Bool
  update_calls : ℕ

/-- Resolution of the `term_widths` constructor argument: a falsy value
(`None` or the empty list) defaults to the equal split
`[1./num_stages] * num_stages`. -/
def ms_fracs (term_widths? : Option (List ℚ)) (num_stages : ℕ) : List ℚ :=
  match term_widths? with
  | some ws => if ws.isEmpty then List.replicate num_stages (1 / (num_stages : ℚ)) else ws
  | none => List.replicate num_stages (1 / (num_stages : ℚ))

/-- `self.stage_widths[-1] += x` (empty-list indexing would raise in Python;
the claims only reach this with a nonempty list). -/
def bump_last (l : List ℤ) (x : ℤ) : List ℤ :=
  match l with
  | [] => []
  | _ :: _ => l.dropLast ++ [l.getLastD 0 + x]

/-- `self.titles[1:] = [' '+t for t in self.titles[1:]]`. -/
def sep_titles (l : List String) : List String :=
  match l with
  | [] => []
  | h :: t => h :: t.map (fun s => " " ++ s)

/-- `self.stage_widths[1:] = [w-1 for w in self.stage_widths[1:]]`. -/
def dec_tail (l : List ℤ) : List ℤ :=
  match l with
  | [] => []
  | h :: t => h :: t.map (fun w => w - 1)

/-- `MultiStageProgressBar.__init__`.  A falsy `titles` argument defaults to
`[''] * len(maxvals)` (the length-match assertion is a precondition and the
claims never violate it); the sub-bars are always built with the module's
`default_widgets` — the `widgets` constructor argument is accepted but never
used by the source, hence the ignored parameter here. -/
def mspb_init (maxvals : List ℚ) (_widgets : List Widget) (term_widths? : Option (List ℚ))
    (titles? : Option (List String)) (cascade : Bool) (term_width : ℤ) : MSState :=
  let num_stages := maxvals.length
  let titles :=
    match titles? with
    | some ts => if ts.isEmpty then List.replicate num_stages "" else ts
    | none => List.replicate num_stages ""
  let fracs := ms_fracs term_widths? num_stages
  let sw0 := fracs.map (fun f => py_int ((term_width : ℚ) * f))
  let sw1 := bump_last sw0 (term_width - sw0.sum)
  let titles1 := sep_titles titles
  let sw2 := dec_tail sw1
  let pbars := (maxvals.zip (titles1.zip sw2)).map
    (fun x => pb_init x.1 default_widgets x.2.2 x.2.1)
  { maxvals := maxvals
    num_stages := num_stages
    finished := false
    titles := titles1
    term_width := term_width
    stage_widths := sw2
    pbars := pbars
    cascade := cascade
    update_calls := 0 }

/-- Placeholder tracker used to model Python list indexing on the (always
in-range, for the claims) stage index. -/
def pb_default : PBState :=
  pb_init 1 [] 0 ""

/-- `MultiStageProgressBar.reset_stage(stage, maxval, title)`: truthy
`maxval`/`title` arguments overwrite the stored ones, the targeted stage's
tracker is replaced by a fresh `ProgressBar` (with `default_widgets`), and
then every stage in `range(stage, num_stages)` — or just `[stage]` when
`cascade` is off — is replaced the same way. -/
def mspb_reset_stage (m : MSState) (stage : ℕ) (maxval? : Option ℚ) (title? : Option String) :
    MSState :=
  let maxvals :=
    match maxval? with
    | some v => if v = 0 then m.maxvals else m.maxvals.set stage v
    | none => m.maxvals
  let titles :=
    match title? with
    | some t => if t = "" then m.titles else m.titles.set stage t
    | none => m.titles
  let mkpb : ℕ → PBState := fun st =>
    pb_init (maxvals.getD st 0) default_widgets (m.stage_widths.getD st 0) (titles.getD st "")
  let pbars := m.pbars.set stage (mkpb stage)
  let to_reset := if m.cascade then List.range' stage (m.num_stages - stage) else [stage]
  let pbars := to_reset.foldl (fun ps st => ps.set st (mkpb st)) pbars
  { m with maxvals := maxvals, titles := titles, pbars := pbars }

/-- `MultiStageProgressBar.print_bars()`: concatenate every sub-bar's
formatted line and write it, newline-terminated when the composite is
finished, else carriage-return-terminated. -/
def print_bars (m : MSState) : List String :=
  [String.join (m.pbars.map format_line) ++ (if m.finished then "\n" else "\r")]

/-- Shared prelude of every `MultiStageProgressBar.update` call:
`self.update_calls += 1` followed by `self._pbars[stage]._update()` (a plain
increment — the `val` argument of `update` is never passed on), storing the
advanced tracker back into its slot and also returning it for the
`finished` test that follows. -/
def mspb_advance (m : MSState) (stage : ℕ) (now : ℚ) : Except PBErr (MSState × PBState) :=
  let m := { m with update_calls := m.update_calls + 1 }
  (pb_update_ (m.pbars.getD stage pb_default) none now).map
    (fun pb' => ({ m with pbars := m.pbars.set stage pb' }, pb'))

/-- Body of `MultiStageProgressBar.update` for an explicit stage index,
recursing toward stage 0 exactly as `self.update(stage=stage-1)` does.
After the shared `mspb_advance` prelude, the source branches on the stage:
if the targeted stage just finished and `0 < stage < num_stages`, reset it
and carry into the previous stage; if stage 0 just finished, mark the
composite finished, force every sub-bar to its maximum
(`pbar._update(pbar.maxval)`), and print; a stage index at or beyond
`num_stages` that somehow finished falls through without printing; an
unfinished stage just prints the current composite line. -/
def mspb_update_go (now : ℚ) : ℕ → MSState → Except PBErr (MSState × List String)
  | 0, m =>
    match mspb_advance m 0 now with
    | .error e => .error e
    | .ok (m, pb') =>
      if pb'.finished then
        let m := { m with finished := true }
        match m.pbars.mapM (fun pb => pb_update_ pb (some pb.maxval) now) with
        | .error e => .error e
        | .ok pbars' =>
          let m := { m with pbars := pbars' }
          .ok (m, print_bars m)
      else
        .ok (m, print_bars m)
  | st + 1, m =>
    match mspb_advance m (st + 1) now with
    | .error e => .error e
    | .ok (m, pb') =>
      if pb'.finished then
        if st + 1 < m.num_stages then
          mspb_update_go now st (mspb_reset_stage m (st + 1) none none)
        else
          .ok (m, [])
      else
        .ok (m, print_bars m)

/-- `MultiStageProgressBar.update(stage, val)`: a missing stage targets the
innermost stage `num_stages - 1`.  The `val` parameter is part of the
signature but is not read anywhere in the body (the sub-bar is advanced with
a plain `_update()`), which the unused argument mirrors. -/
def mspb_update (m : MSState) (stage? : Option ℕ) (_val? : Option ℚ) (now : ℚ) :
    Except PBErr (MSState × List String) :=
  mspb_update_go now (stage?.getD (m.num_stages - 1)) m

/-- Run a sequence of `update(stage, val)` calls at given clock readings,
accumulating the written lines. -/
def mspb_run (m : MSState) : List (Option ℕ × Option ℚ × ℚ) →
    Except PBErr (MSState × List String)
  | [] => .ok (m, [])
  | c :: cs =>
    match mspb_update m c.1 c.2.1 c.2.2 with
    | .error e => .error e
    | .ok (m1, w1) =>
      match mspb_run m1 cs with
      | .error e => .error e
      | .ok (m2, w2) => .ok (m2, w1 ++ w2)

/-- Fill widget used in concrete layout checks: returns exactly the requested
number of `x` characters. -/
def fillx : WView → ℤ → String :=
  fun _ width => String.mk (List.replicate width.toNat 'x')

/-- Concrete tracker used to check the layout theorem: one 3-character
literal and one fill widget on a 10-column terminal. -/
def layout_state : PBState :=
  { maxval := 1
    widgets := [.literal "abc", .fill fillx]
    term_width := 10
    currval := 0
    finished := false
    prev_percentage := -1
    start_time := none
    seconds_elapsed := 0 }

/-- Concrete tracker sitting at a rendered percentage of 50: `maxval = 2`,
`currval = 1`, `prev_percentage = 50`, as after an `update(1)`. -/
def debounce_state : PBState :=
  { pb_init 2 [] 10 "" with currval := 1, prev_percentage := 50 }

/-- Fresh `ProgressBar(maxval=2)` used to instantiate the `finish`
idempotence theorem. -/
def finish_demo : PBState :=
  pb_init 2 [] 10 ""

/-- The completed state `finish()` drives `finish_demo` to: `finished` set
and `currval` forced to `maxval`. -/
def finish_demo_done : PBState :=
  { finish_demo with finished := true, currval := finish_demo.maxval }

/-- Reachable-state invariant of a `ProgressBar`: positive maximum, the
current value in range, `finished` whenever the maximum is reached, and —
while unfinished — a `prev_percentage` that is not yet 100 (the rendered
percentage hits 100 only together with `finished`). -/
def PBInv (s : PBState) : Prop :=
  0 < s.maxval ∧ 0 ≤ s.currval ∧ s.currval ≤ s.maxval ∧
    (s.currval = s.maxval → s.finished = true) ∧
    (s.finished = false → s.prev_percentage ≠ 100)

/-- State after running `update(1)` on a fresh `ProgressBar(maxval=1)` with
no widgets and a 5-column width (used to instantiate the invariant
theorem at a concrete run). -/
def invariant_demo_final : PBState :=
  { maxval := 1
    widgets := []
    term_width := 5
    currval := 1
    finished := true
    prev_percentage := 100
    start_time := some 0
    seconds_elapsed := 0 }

/-! Helper lemmas shared by the claim theorems. -/

lemma pb_update_some_ok (s : PBState) (v now : ℚ) (h0 : 0 ≤ v) (h1 : v ≤ s.maxval) :
    pb_update_ s (some v) now = .ok (pb_advance_state s v now) := by
  unfold pb_update_
  simp only [Option.getD_some, if_pos h0, if_pos h1]

lemma pb_advance_state_fresh (maxval v now : ℚ) (tw : ℤ) (ws : List Widget) (title : String)
    (hm : 0 < maxval) (h0 : 0 ≤ v) :
    pb_advance_state (pb_init maxval ws tw title) v now =
      { pb_init maxval ws tw title with
        currval := v
        start_time := some now
        seconds_elapsed := 0
        prev_percentage := v * 100 / maxval
        finished := decide (v = maxval) } := by
  have hne : need_update { pb_init maxval ws tw title with currval := v } = true := by
    unfold need_update
    rw [decide_eq_true_eq]
    show v * 100 / maxval ≠ -1
    have h2 : (0:ℚ) ≤ v * 100 / maxval := by positivity
    intro hc
    rw [hc] at h2
    linarith
  have hcond : ¬ (need_update { pb_init maxval ws tw title with currval := v } = false ∨
      ({ pb_init maxval ws tw title with currval := v } : PBState).finished = true) := by
    rw [hne]
    simp [pb_init]
  unfold pb_advance_state
  rw [if_neg hcond]
  simp only [pb_init, Option.getD_none]
  norm_num
  rfl

lemma percentage_eq_100_iff (v maxval : ℚ) (hm : 0 < maxval) :
    v * 100 / maxval = 100 ↔ v = maxval := by
  rw [div_eq_iff (ne_of_gt hm)]
  constructor
  · intro h
    linarith
  · intro h
    rw [h]
    ring

lemma pb_advance_inv (s : PBState) (v now : ℚ) (hInv : PBInv s) (h0 : 0 ≤ v)
    (h1 : v ≤ s.maxval) :
    PBInv (pb_advance_state s v now) ∧
      (s.finished = true → (pb_advance_state s v now).finished = true) := by
  obtain ⟨hm, _, _, hcm, hp⟩ := hInv
  have hper : percentage { s with currval := v } = v * 100 / s.maxval := rfl
  unfold pb_advance_state
  by_cases hc : need_update { s with currval := v } = false ∨
      ({ s with currval := v } : PBState).finished = true
  · rw [if_pos hc]
    refine ⟨⟨hm, h0, h1, ?_, ?_⟩, fun h => h⟩
    · show v = s.maxval → s.finished = true
      intro hvm
      rcases hc with hc | hc
      · unfold need_update at hc
        rw [decide_eq_false_iff_not, not_not, hper, hvm,
          (percentage_eq_100_iff s.maxval s.maxval hm).mpr rfl] at hc
        by_contra hnf
        have hsf : s.finished = false := by
          cases h : s.finished
          · rfl
          · exact absurd h hnf
        exact hp hsf hc.symm
      · exact hc
    · show s.finished = false → s.prev_percentage ≠ 100
      exact hp
  · rw [if_neg hc]
    push_neg at hc
    obtain ⟨hc1, hc2⟩ := hc
    refine ⟨⟨hm, h0, h1, ?_, ?_⟩, ?_⟩
    · show v = s.maxval → decide (v = s.maxval) = true
      intro hvm
      simp [hvm]
    · show decide (v = s.maxval) = false → percentage { s with currval := v } ≠ 100
      intro hfin
      simp only [decide_eq_false_iff_not] at hfin
      rw [hper]
      intro hcon
      exact hfin ((percentage_eq_100_iff v s.maxval hm).mp hcon)
    · intro hsf
      exact absurd hsf hc2

lemma pb_update__inv (s s' : PBState) (v? : Option ℚ) (now : ℚ) (hInv : PBInv s)
    (h : pb_update_ s v? now = .ok s') :
    PBInv s' ∧ (s.finished = true → s'.finished = true) := by
  unfold pb_update_ at h
  by_cases h0 : 0 ≤ v?.getD (s.currval + 1)
  · rw [if_pos h0] at h
    by_cases h1 : v?.getD (s.currval + 1) ≤ s.maxval
    · rw [if_pos h1] at h
      injection h with h
      rw [← h]
      exact pb_advance_inv s _ now hInv h0 h1
    · rw [if_neg h1] at h
      exact absurd h (by simp)
  · rw [if_neg h0] at h
    exact absurd h (by simp)

lemma pb_update_inv (s s' : PBState) (v? : Option ℚ) (now : ℚ) (w : List String) (hInv : PBInv s)
    (h : pb_update s v? now = .ok (s', w)) :
    PBInv s' ∧ (s.finished = true → s'.finished = true) := by
  unfold pb_update at h
  cases hu : pb_update_ s v? now with
  | error e =>
    rw [hu] at h
    exact absurd h (by simp)
  | ok s2 =>
    rw [hu] at h
    injection h with h
    have h2 : s2 = s' := congrArg Prod.fst h
    rw [← h2]
    exact pb_update__inv s s2 v? now hInv hu

lemma pb_step_inv (s s' : PBState) (op : PBOp) (w : List String) (hInv : PBInv s)
    (h : pb_step s op = .ok (s', w)) :
    PBInv s' ∧ (s.finished = true → s'.finished = true) := by
  cases op with
  | start now => exact pb_update_inv s s' (some 0) now w hInv h
  | update v? now => exact pb_update_inv s s' v? now w hInv h
  | finish now =>
    unfold pb_step pb_finish at h
    dsimp only at h
    by_cases hf : s.finished = true
    · rw [if_pos hf] at h
      injection h with h
      have h2 : s = s' := congrArg Prod.fst h
      rw [← h2]
      exact ⟨hInv, fun h => h⟩
    · have hf' : s.finished = false := by
        cases hb : s.finished
        · rfl
        · exact absurd hb hf
      rw [hf'] at h
      rw [if_neg (by decide : ¬ (false = true))] at h
      obtain ⟨hm, h0c, h1c, hcm, hp⟩ := hInv
      have hstep := pb_update_inv { s with finished := true } s' (some s.maxval) now w
        ⟨hm, h0c, h1c, fun _ => rfl, by intro hcon; exact absurd hcon (by simp)⟩ h
      exact ⟨hstep.1, fun _ => hstep.2 rfl⟩

lemma pb_run_inv (s : PBState) (ops : List PBOp) (s' : PBState) (w : List String)
    (hInv : PBInv s) (h : pb_run s ops = .ok (s', w)) : PBInv s' := by
  induction ops generalizing s w with
  | nil =>
    unfold pb_run at h
    injection h with h
    injection h with h1 h2
    rw [← h1]
    exact hInv
  | cons op ops ih =>
    unfold pb_run at h
    cases h1 : pb_step s op with
    | error e =>
      rw [h1] at h
      exact absurd h (by simp)
    | ok p =>
      obtain ⟨s1, w1⟩ := p
      rw [h1] at h
      dsimp only at h
      cases h2 : pb_run s1 ops with
      | error e =>
        rw [h2] at h
        exact absurd h (by simp)
      | ok q =>
        obtain ⟨s2, w2⟩ := q
        rw [h2] at h
        dsimp only at h
        injection h with h
        injection h with h3 h4
        have hstep := pb_step_inv s s1 op w1 hInv h1
        rw [h3] at h2
        exact ih s1 w2 hstep.1 h2

lemma pb_advance_mono (s : PBState) (v now : ℚ) (hf : s.finished = true) :
    (pb_advance_state s v now).finished = true := by
  unfold pb_advance_state
  by_cases hc : need_update { s with currval := v } = false ∨
      ({ s with currval := v } : PBState).finished = true
  · rw [if_pos hc]
    exact hf
  · rw [if_neg hc]
    push_neg at hc
    exact absurd hf hc.2

lemma pb_update__mono (s s' : PBState) (v? : Option ℚ) (now : ℚ)
    (h : pb_update_ s v? now = .ok s') (hf : s.finished = true) : s'.finished = true := by
  unfold pb_update_ at h
  dsimp only at h
  split_ifs at h with h0 h1
  injection h with h
  rw [← h]
  exact pb_advance_mono s _ now hf

lemma pb_update_mono (s s' : PBState) (v? : Option ℚ) (now : ℚ) (w : List String)
    (h : pb_update s v? now = .ok (s', w)) (hf : s.finished = true) : s'.finished = true := by
  unfold pb_update at h
  cases hu : pb_update_ s v? now with
  | error e =>
    rw [hu] at h
    exact absurd h (by simp)
  | ok s2 =>
    rw [hu] at h
    injection h with h
    injection h with h1 h2
    rw [← h1]
    exact pb_update__mono s s2 v? now hu hf

lemma pb_step_mono (s s' : PBState) (op : PBOp) (w : List String)
    (h : pb_step s op = .ok (s', w)) (hf : s.finished = true) : s'.finished = true := by
  cases op with
  | start now => exact pb_update_mono s s' (some 0) now w h hf
  | update v? now => exact pb_update_mono s s' v? now w h hf
  | finish now =>
    unfold pb_step pb_finish at h
    dsimp only at h
    rw [if_pos hf] at h
    injection h with h
    injection h with h1 h2
    rw [← h1]
    exact hf

lemma ljust_length (str : String) (w : ℤ) :
    (ljust str w).length = str.length + (w - (str.length : ℤ)).toNat := by
  simp [ljust]

lemma foldl_append_length (l : List String) (acc : String) :
    ((l.foldl (fun r s => r ++ s) acc)).length = acc.length + (l.map String.length).sum := by
  induction l generalizing acc with
  | nil => simp
  | cons h t ih =>
    simp only [List.foldl_cons, List.map_cons, List.sum_cons]
    rw [ih, String.length_append]
    ring

lemma join_length (l : List String) : (String.join l).length = (l.map String.length).sum := by
  unfold String.join
  rw [foldl_append_length]
  simp

lemma sum_render_lengths (s : PBState) (ws : List Widget)
    (hfills : ∀ f, Widget.fill f ∈ ws →
      (f (wview s) (hfill_width s)).length = (hfill_width s).toNat) :
    ((ws.map (render_widget s)).map String.length).sum =
      (ws.map (widget_width s)).sum + (ws.filter is_fill).length * (hfill_width s).toNat := by
  induction ws with
  | nil => simp
  | cons wname t ih =>
    have iht := ih (fun f hf => hfills f (List.mem_cons_of_mem wname hf))
    cases wname with
    | literal str =>
      simp only [List.map_cons, List.sum_cons, List.filter_cons, render_widget, widget_width]
      have hfil : is_fill (Widget.literal str) = false := rfl
      rw [hfil, iht]
      simp only [Bool.false_eq_true, if_false]
      omega
    | dynamic f =>
      simp only [List.map_cons, List.sum_cons, List.filter_cons, render_widget, widget_width]
      have hfil : is_fill (Widget.dynamic f) = false := rfl
      rw [hfil, iht]
      simp only [Bool.false_eq_true, if_false]
      omega
    | fill f =>
      simp only [List.map_cons, List.sum_cons, List.filter_cons, render_widget, widget_width]
      have hfil : is_fill (Widget.fill f) = true := rfl
      rw [hfil, iht, hfills f (List.mem_cons_self _ _)]
      simp only [if_true, List.length_cons]
      ring

lemma sum_map_sub_one (t : List ℤ) : (t.map (fun w => w - 1)).sum = t.sum - t.length := by
  induction t with
  | nil => simp
  | cons h tl ih =>
    simp only [List.map_cons, List.sum_cons, List.length_cons, ih]
    push_cast
    ring

lemma sum_dec_tail (l : List ℤ) (h : l ≠ []) :
    (dec_tail l).sum = l.sum - (l.length - 1) := by
  cases l with
  | nil => exact absurd rfl h
  | cons a t =>
    unfold dec_tail
    simp only [List.sum_cons, List.length_cons, sum_map_sub_one]
    push_cast
    ring

lemma sum_bump_last (l : List ℤ) (x : ℤ) (h : l ≠ []) :
    (bump_last l x).sum = l.sum + x := by
  cases l with
  | nil => exact absurd rfl h
  | cons a t =>
    unfold bump_last
    have hd : (a :: t).dropLast ++ [(a :: t).getLast (by simp)] = a :: t :=
      List.dropLast_append_getLast (by simp)
    have hlast : (a :: t).getLastD 0 = (a :: t).getLast (by simp) := by
      rw [List.getLastD_cons]
      exact (List.getLast_eq_getLastD a t (by simp)).symm
    calc ((a :: t).dropLast ++ [(a :: t).getLastD 0 + x]).sum
        = (a :: t).dropLast.sum + ((a :: t).getLastD 0 + x) := by
          rw [List.sum_append]
          simp
      _ = (a :: t).dropLast.sum + (a :: t).getLast (by simp) + x := by
          rw [hlast]
          ring
      _ = ((a :: t).dropLast ++ [(a :: t).getLast (by simp)]).sum + x := by
          rw [List.sum_append]
          simp
      _ = (a :: t).sum + x := by rw [hd]

lemma bump_last_ne_nil (l : List ℤ) (x : ℤ) (h : l ≠ []) : bump_last l x ≠ [] := by
  cases l with
  | nil => exact absurd rfl h
  | cons a t =>
    unfold bump_last
    simp

lemma bump_last_length (l : List ℤ) (x : ℤ) (h : l ≠ []) :
    (bump_last l x).length = l.length := by
  cases l with
  | nil => exact absurd rfl h
  | cons a t =>
    unfold bump_last
    rw [List.length_append, List.length_dropLast]
    simp

lemma except_map_ok {ε α β : Type} (f : α → β) (e : Except ε α) (b : β)
    (h : e.map f = .ok b) : ∃ a, e = .ok a ∧ f a = b := by
  cases e with
  | error err => simp [Except.map] at h
  | ok a =>
    refine ⟨a, rfl, ?_⟩
    simpa [Except.map] using h

lemma reset_stage_widths (m : MSState) (stage : ℕ) (maxval? : Option ℚ)
    (title? : Option String) :
    (mspb_reset_stage m stage maxval? title?).stage_widths = m.stage_widths := rfl

lemma mspb_advance_widths (m : MSState) (stage : ℕ) (now : ℚ) (m' : MSState) (pb' : PBState)
    (h : mspb_advance m stage now = .ok (m', pb')) :
    m'.stage_widths = m.stage_widths ∧ m'.num_stages = m.num_stages := by
  unfold mspb_advance at h
  dsimp only at h
  obtain ⟨pb2, he, hf⟩ := except_map_ok _ _ _ h
  have h1 := congrArg Prod.fst hf
  dsimp only at h1
  rw [← h1]
  exact ⟨rfl, rfl⟩

lemma mspb_update_go_widths (now : ℚ) (stage : ℕ) :
    ∀ (m m' : MSState) (w : List String), mspb_update_go now stage m = .ok (m', w) →
      m'.stage_widths = m.stage_widths := by
  induction stage with
  | zero =>
    intro m m' w h
    simp only [mspb_update_go] at h
    cases ha : mspb_advance m 0 now with
    | error e =>
      rw [ha] at h
      exact absurd h (by simp)
    | ok p =>
      obtain ⟨m1, pb'⟩ := p
      rw [ha] at h
      dsimp only at h
      have hw := mspb_advance_widths m 0 now m1 pb' ha
      by_cases hf : pb'.finished = true
      · rw [if_pos hf] at h
        cases hm : (({ m1 with finished := true } : MSState)).pbars.mapM
            (fun pb => pb_update_ pb (some pb.maxval) now) with
        | error e =>
          rw [hm] at h
          exact absurd h (by simp)
        | ok pbars' =>
          rw [hm] at h
          dsimp only at h
          injection h with h
          injection h with h1 h2
          rw [← h1]
          exact hw.1
      · rw [if_neg hf] at h
        injection h with h
        injection h with h1 h2
        rw [← h1]
        exact hw.1
  | succ st ih =>
    intro m m' w h
    simp only [mspb_update_go] at h
    cases ha : mspb_advance m (st + 1) now with
    | error e =>
      rw [ha] at h
      exact absurd h (by simp)
    | ok p =>
      obtain ⟨m1, pb'⟩ := p
      rw [ha] at h
      dsimp only at h
      have hw := mspb_advance_widths m (st + 1) now m1 pb' ha
      by_cases hf : pb'.finished = true
      · rw [if_pos hf] at h
        by_cases hlt : st + 1 < m1.num_stages
        · rw [if_pos hlt] at h
          have hrec := ih _ m' w h
          rw [hrec, reset_stage_widths]
          exact hw.1
        · rw [if_neg hlt] at h
          injection h with h
          injection h with h1 h2
          rw [← h1]
          exact hw.1
      · rw [if_neg hf] at h
        injection h with h
        injection h with h1 h2
        rw [← h1]
        exact hw.1

lemma mspb_update_widths (m : MSState) (stage? : Option ℕ) (val? : Option ℚ) (now : ℚ)
    (m' : MSState) (w : List String) (h : mspb_update m stage? val? now = .ok (m', w)) :
    m'.stage_widths = m.stage_widths := by
  unfold mspb_update at h
  exact mspb_update_go_widths now _ m m' w h

/-! Claim theorems. -/

/-- C1: for every `ProgressBar` whose widget list contains `k ≥ 1` fill
widgets, whose fixed-width elements (literal strings and dynamic widget
outputs) total `c ≤ term_width` characters, and whose fill widgets honour
the fill contract (return a string of exactly the requested width), a render
passes every fill widget exactly `⌊(term_width - c) / k⌋` (floor division,
`Int.fdiv`) as its width argument — the leftover columns of the floor
division are not handed to any fill widget — and the rendered line
(`_format_line`) has length exactly `term_width`. -/
theorem c1_fill_layout (s : PBState)
    (hk : 1 ≤ num_hfill s)
    (hc : (fixed_width s : ℤ) ≤ s.term_width)
    (hfills : ∀ f, Widget.fill f ∈ s.widgets →
      (f (wview s) (hfill_width s)).length = (hfill_width s).toNat) :
    (∀ (i : ℕ) (f : WView → ℤ → String), s.widgets[i]? = some (Widget.fill f) →
      (format_widgets s)[i]? =
        some (f (wview s) (Int.fdiv (s.term_width - (fixed_width s : ℤ)) (num_hfill s)))) ∧
    ((format_line s).length : ℤ) = s.term_width := by
  have hcontent : ((format_widgets s).map String.length).sum
      = fixed_width s + num_hfill s * (hfill_width s).toNat := by
    unfold format_widgets fixed_width num_hfill
    rw [sum_render_lengths s s.widgets hfills]
  have hkz : (0:ℤ) < (num_hfill s : ℤ) := by exact_mod_cast hk
  have hfd : hfill_width s = (s.term_width - (fixed_width s : ℤ)) / (num_hfill s : ℤ) :=
    Int.fdiv_eq_ediv _ (le_of_lt hkz)
  have hnn : 0 ≤ hfill_width s := by
    rw [hfd]
    exact Int.ediv_nonneg (by linarith) (le_of_lt hkz)
  have hmul : (num_hfill s : ℤ) * hfill_width s ≤ s.term_width - (fixed_width s : ℤ) := by
    rw [hfd, mul_comm]
    exact Int.ediv_mul_le _ (ne_of_gt hkz)
  constructor
  · intro i f hf
    unfold format_widgets
    rw [List.getElem?_map, hf]
    rfl
  · unfold format_line
    rw [ljust_length, join_length, hcontent]
    push_cast
    rw [Int.toNat_of_nonneg hnn]
    rw [Int.toNat_of_nonneg (show (0:ℤ) ≤ s.term_width -
      ((fixed_width s : ℤ) + (num_hfill s : ℤ) * hfill_width s) by linarith)]
    ring

/-- Witness for C1 at `layout_state` (literal `"abc"`, one fill widget,
`term_width = 10`): the hypotheses hold and the rendered line has exactly
10 characters. -/
theorem c1_fill_layout_witness :
    1 ≤ num_hfill layout_state ∧ (fixed_width layout_state : ℤ) ≤ layout_state.term_width ∧
      ((format_line layout_state).length : ℤ) = layout_state.term_width :=
  ⟨by decide, by decide,
    (c1_fill_layout layout_state (by decide) (by decide) (by
      intro f hf
      have hmem : Widget.fill f = Widget.literal "abc" ∨ Widget.fill f = Widget.fill fillx := by
        simpa [layout_state, List.mem_cons] using hf
      rcases hmem with hcon | hefill
      · exact Widget.noConfusion hcon
      · injection hefill with he
        rw [he]
        decide)).2⟩

unseal Rat.add Rat.mul Rat.sub Rat.inv in
/-- C2: on `MultiStageProgressBar(maxvals=[2,3], cascade=True)` with an
80-column terminal, three `update(stage=1)` calls complete stage 1, replace
its tracker by a fresh one at value 0 with the same maximum (3), the same
width (39 columns) and the stored titles unchanged, and advance stage 0 by
exactly one step (its value becomes 1); after repeating the cycle (six calls
in total) stage 0 completes, every sub-bar is forced to its maximum, and the
composite `finished` flag becomes true. -/
theorem c2_cascade_odometer :
    ((mspb_run (mspb_init [2, 3] default_widgets none none true 80)
        (List.replicate 3 (some 1, none, 0))).map
      (fun p => (p.1.pbars.map PBState.currval, p.1.pbars.map PBState.prev_percentage,
        p.1.finished))
      = .ok ([1, 0], [50, -1], false)) ∧
    ((mspb_run (mspb_init [2, 3] default_widgets none none true 80)
        (List.replicate 3 (some 1, none, 0))).map
      (fun p => (p.1.pbars.map PBState.maxval, p.1.pbars.map PBState.term_width,
        p.1.titles))
      = .ok ([2, 3], [40, 39], ["", " "])) ∧
    ((mspb_run (mspb_init [2, 3] default_widgets none none true 80)
        (List.replicate 6 (some 1, none, 0))).map
      (fun p => (p.1.pbars.map PBState.currval, p.1.pbars.map PBState.maxval,
        p.1.pbars.map PBState.finished, p.1.finished))
      = .ok ([2, 3], [2, 3], [true, true], true)) := by
  refine ⟨?_, ?_, ?_⟩
  · decide
  · decide
  · decide

unseal Rat.add Rat.mul Rat.sub Rat.inv in
/-- C3 counterexample: on a fresh `ProgressBar(maxval=2)` the calls
`update(1)`, `update(1)` map to the same displayed percentage (50) and the
second call does not transition the bar to finished, yet each of the two
calls writes exactly one line to the output sink (two writes in total, not
at most one): `update` never skips the write — the debounce guard in
`_update` only skips the state bookkeeping. -/
theorem c3_counterexample :
    (pb_update (pb_init 2 [] 10 "") (some 1) 0).map (fun p => p.2.length) = .ok 1 ∧
    ((pb_update (pb_init 2 [] 10 "") (some 1) 0).bind
      (fun p => pb_update p.1 (some 1) 1)).map (fun q => q.2.length) = .ok 1 := by
  constructor
  · decide
  · decide

/-- C3 (amended): an `update(v)` call with `v` in range whose new displayed
percentage equals `prev_percentage` (or that hits an already-finished bar)
skips the timing update — the state changes only by `currval := v`, leaving
`start_time`, `seconds_elapsed`, `prev_percentage` and `finished`
untouched — but it does **not** skip the redraw: the call still writes
exactly one line to the output sink. -/
theorem c3_debounce_skips_state_not_write (s : PBState) (v now : ℚ)
    (h0 : 0 ≤ v) (h1 : v ≤ s.maxval)
    (hdeb : percentage { s with currval := v } = s.prev_percentage ∨ s.finished = true) :
    pb_update s (some v) now =
      .ok ({ s with currval := v },
        [format_line { s with currval := v } ++ (if s.finished then "\n" else "\r")]) := by
  unfold pb_update
  rw [pb_update_some_ok _ _ _ h0 h1]
  have h2 : pb_advance_state s v now = { s with currval := v } := by
    unfold pb_advance_state
    rw [if_pos ?_]
    rcases hdeb with h | h
    · left
      unfold need_update
      simp [h]
    · right
      exact h
  rw [h2]

unseal Rat.add Rat.mul Rat.sub Rat.inv in
/-- Witness for C3 (amended) at `debounce_state` (`maxval = 2`,
`currval = 1`, `prev_percentage = 50`): a second `update(1)` keeps the state
(up to the re-assignment of `currval` to the same value 1) and performs one
carriage-return-terminated write. -/
theorem c3_debounce_skips_state_not_write_witness :
    pb_update debounce_state (some 1) 7 =
      .ok ({ debounce_state with currval := 1 },
        [format_line { debounce_state with currval := 1 } ++
          (if debounce_state.finished then "\n" else "\r")]) :=
  c3_debounce_skips_state_not_write debounce_state 1 7 (by decide) (by decide)
    (Or.inl (by decide))

unseal Rat.add Rat.mul Rat.sub Rat.inv in
/-- C4 counterexample: with `cascade=False` and `maxvals=[2,3]`, three
`update(stage=1)` calls still advance stage 0 — its tracker ends at value 1,
not 0 as the claim requires (`MultiStageProgressBar.update` never consults
`cascade` before carrying into the preceding stage). -/
theorem c4_counterexample :
    (mspb_run (mspb_init [2, 3] default_widgets none none false 80)
        (List.replicate 3 (some 1, none, 0))).map
      (fun p => p.1.pbars.map PBState.currval) = .ok [1, 0] ∧ (1 : ℚ) ≠ 0 := by
  constructor
  · decide
  · decide

unseal Rat.add Rat.mul Rat.sub Rat.inv in
/-- C4 (amended): completing a non-outermost stage behaves identically with
`cascade=False` and `cascade=True` as far as the carry is concerned: the
finished stage is reset to a fresh tracker at 0 and the preceding stage is
advanced by one.  The `cascade` flag only controls whether `reset_stage`
also resets the stages after the targeted one: with `maxvals=[2,2,2]` and
the call sequence `update(stage=2)`, `update(stage=1)`, `update(stage=1)`,
stage 2's progress survives under `cascade=False` (`currval` stays 1) but is
wiped under `cascade=True` (`currval` back to 0). -/
theorem c4_cascade_false_still_advances :
    ((mspb_run (mspb_init [2, 3] default_widgets none none false 80)
        (List.replicate 3 (some 1, none, 0))).map
      (fun p => (p.1.pbars.map PBState.currval, p.1.pbars.map PBState.prev_percentage,
        p.1.finished))
      = .ok ([1, 0], [50, -1], false)) ∧
    ((mspb_run (mspb_init [2, 2, 2] default_widgets none none false 80)
        [(some 2, none, 0), (some 1, none, 0), (some 1, none, 0)]).map
      (fun p => p.1.pbars.map PBState.currval) = .ok [1, 0, 1]) ∧
    ((mspb_run (mspb_init [2, 2, 2] default_widgets none none true 80)
        [(some 2, none, 0), (some 1, none, 0), (some 1, none, 0)]).map
      (fun p => p.1.pbars.map PBState.currval) = .ok [1, 0, 0]) := by
  refine ⟨?_, ?_, ?_⟩
  · decide
  · decide
  · decide

unseal Rat.add Rat.mul Rat.sub Rat.inv in
/-- C5: the `val` argument of `MultiStageProgressBar.update(stage, val)` is
ignored by the implementation.  On `MultiStageProgressBar(maxvals=[5])`,
`update(stage=0, val=3)` leaves stage 0's tracker at 1 (the plain increment),
not 3; and in general the result of `mspb_update` does not depend on the
`val` argument at all. -/
theorem c5_val_ignored :
    ((mspb_update (mspb_init [5] default_widgets none none true 80) (some 0) (some 3) 0).map
      (fun p => p.1.pbars.map PBState.currval) = .ok [1]) ∧
    ∀ (m : MSState) (stage? : Option ℕ) (val? : Option ℚ) (now : ℚ),
      mspb_update m stage? val? now = mspb_update m stage? none now :=
  ⟨by decide, fun _ _ _ _ => rfl⟩

unseal Rat.add Rat.mul Rat.sub Rat.inv in
/-- C6 counterexample: `MultiStageProgressBar(maxvals=[2,3])` on an
80-column terminal ends construction with `stage_widths = [40, 39]` — the
one-column reduction of every stage after the first breaks the claimed
invariant `sum(stage_widths) == term_width` (79 ≠ 80). -/
theorem c6_counterexample :
    (mspb_init [2, 3] default_widgets none none true 80).stage_widths = [40, 39] ∧
    (mspb_init [2, 3] default_widgets none none true 80).stage_widths.sum = 79 ∧
    (mspb_init [2, 3] default_widgets none none true 80).term_width = 80 ∧
    (79 : ℤ) ≠ 80 := by
  refine ⟨?_, ?_, ?_, ?_⟩
  · decide
  · decide
  · decide
  · decide

/-- C6 (amended): the stage widths are computed at construction by flooring
`term_width`-times-fraction, adding the truncation remainder entirely to the
last stage, and then reducing every stage after the first by one column for
the separator space; consequently `sum(stage_widths) = term_width -
(num_stages - 1)` holds at construction (`term_width - length + 1`), and
`update` never modifies `stage_widths`, so the equality is an invariant of
the object. -/
theorem c6_stage_widths_partition (maxvals : List ℚ) (ws : List Widget)
    (term_widths? : Option (List ℚ)) (titles? : Option (List String)) (cascade : Bool)
    (term_width : ℤ) (hne : maxvals ≠ [])
    (hlen : (ms_fracs term_widths? maxvals.length).length = maxvals.length) :
    (mspb_init maxvals ws term_widths? titles? cascade term_width).stage_widths.sum =
      term_width - maxvals.length + 1 ∧
    ∀ (m m' : MSState) (stage? : Option ℕ) (val? : Option ℚ) (now : ℚ) (w : List String),
      mspb_update m stage? val? now = .ok (m', w) → m'.stage_widths = m.stage_widths := by
  constructor
  · unfold mspb_init
    dsimp only
    have hfne : (ms_fracs term_widths? maxvals.length).length ≠ 0 := by
      rw [hlen]
      simpa using hne
    have hm : (ms_fracs term_widths? maxvals.length).map
        (fun f => py_int ((term_width : ℚ) * f)) ≠ [] := by
      intro hcon
      rw [List.map_eq_nil_iff] at hcon
      rw [hcon] at hfne
      simp at hfne
    have hsw0len : ((ms_fracs term_widths? maxvals.length).map
        (fun f => py_int ((term_width : ℚ) * f))).length = maxvals.length := by
      rw [List.length_map, hlen]
    rw [sum_dec_tail _ (bump_last_ne_nil _ _ hm), sum_bump_last _ _ hm,
      bump_last_length _ _ hm, hsw0len]
    have hone : (1:ℤ) ≤ (maxvals.length : ℤ) := by
      have := List.length_pos.mpr hne
      exact_mod_cast this
    ring
  · intro m m' stage? val? now w h
    exact mspb_update_widths m stage? val? now m' w h

/-- Witness for C6 (amended) at `maxvals=[2,3]`, default fractions, 80
columns: the widths sum to 79 = 80 - 2 + 1. -/
theorem c6_stage_widths_partition_witness :
    (mspb_init [2, 3] default_widgets none none true 80).stage_widths.sum =
      80 - ([2, 3] : List ℚ).length + 1 :=
  (c6_stage_widths_partition [2, 3] default_widgets none none true 80
    (by decide) (by decide)).1

/-- C7: on a freshly constructed `ProgressBar` with `maxval > 0`, for every
`0 ≤ v ≤ maxval`, `update(v)` succeeds and afterwards `percentage()` returns
`v * 100 / maxval` and the `finished` flag is true exactly when
`v = maxval`. -/
theorem c7_update_percentage (maxval v now : ℚ) (tw : ℤ) (ws : List Widget) (title : String)
    (hm : 0 < maxval) (h0 : 0 ≤ v) (h1 : v ≤ maxval) :
    ∃ s1 out, pb_update (pb_init maxval ws tw title) (some v) now = .ok (s1, out) ∧
      percentage s1 = v * 100 / maxval ∧ (s1.finished = true ↔ v = maxval) := by
  refine ⟨pb_advance_state (pb_init maxval ws tw title) v now,
    [format_line (pb_advance_state (pb_init maxval ws tw title) v now) ++
      (if (pb_advance_state (pb_init maxval ws tw title) v now).finished then "\n" else "\r")],
    ?_, ?_, ?_⟩
  · unfold pb_update
    rw [pb_update_some_ok _ _ _ h0 h1]
  · rw [pb_advance_state_fresh _ _ _ _ _ _ hm h0]
    rfl
  · rw [pb_advance_state_fresh _ _ _ _ _ _ hm h0]
    simp

/-- Witness for C7 on `ProgressBar(maxval=4)` with `update(1)`: the
percentage is `1 * 100 / 4` and the bar is unfinished. -/
theorem c7_update_percentage_witness :
    ∃ s1 out, pb_update (pb_init 4 [] 10 "") (some 1) 0 = .ok (s1, out) ∧
      percentage s1 = 1 * 100 / 4 ∧ (s1.finished = true ↔ (1:ℚ) = 4) :=
  c7_update_percentage 4 1 0 10 [] "" (by norm_num) (by norm_num) (by norm_num)

/-- C8: `update(v)` with `v < 0` or `v > maxval` fails with
`InvalidProgressValue`.  The two asserts of `_update` run before any field
assignment, and `update` reaches its write only after `_update` returns, so
the error result carries no successor state and no output: the tracker is
left exactly as it was and nothing is written to the sink. -/
theorem c8_invalid_value (s : PBState) (v now : ℚ) (h : v < 0 ∨ s.maxval < v) :
    pb_update s (some v) now = .error .invalidProgressValue := by
  unfold pb_update pb_update_
  simp only [Option.getD_some]
  rcases h with h | h
  · rw [if_neg (not_le.mpr h)]
  · by_cases h0 : 0 ≤ v
    · rw [if_pos h0, if_neg (not_le.mpr h)]
    · rw [if_neg h0]

/-- Witness for C8: `update(-1)` on `ProgressBar(maxval=2)` raises. -/
theorem c8_invalid_value_witness :
    pb_update (pb_init 2 [] 10 "") (some (-1)) 0 = .error .invalidProgressValue :=
  c8_invalid_value (pb_init 2 [] 10 "") (-1) 0 (Or.inl (by norm_num))

/-- C9: `finish()` on an unfinished bar (with nonnegative `maxval`) forces
`update(maxval)` and produces exactly one newline-terminated write; calling
`finish()` again on the resulting state is a no-op that changes no field
(in particular `currval` stays at `maxval`) and writes nothing. -/
theorem c9_finish_idempotent (s : PBState) (now now2 : ℚ) (hm : 0 ≤ s.maxval)
    (hf : s.finished = false) :
    pb_finish s now =
      .ok ({ s with finished := true, currval := s.maxval },
        [format_line { s with finished := true, currval := s.maxval } ++ "\n"]) ∧
    pb_finish { s with finished := true, currval := s.maxval } now2 =
      .ok ({ s with finished := true, currval := s.maxval }, []) := by
  constructor
  · unfold pb_finish
    rw [if_neg (by simp [hf])]
    unfold pb_update
    rw [pb_update_some_ok { s with finished := true } s.maxval now hm (le_refl _)]
    have h2 : pb_advance_state { s with finished := true } s.maxval now =
        { s with finished := true, currval := s.maxval } := by
      unfold pb_advance_state
      rw [if_pos (Or.inr rfl)]
    rw [h2]
    rfl
  · unfold pb_finish
    rw [if_pos rfl]

/-- Witness for C9 on a fresh `ProgressBar(maxval=2)` (`finish_demo` is the
fresh bar, `finish_demo_done` the completed state it reaches). -/
theorem c9_finish_idempotent_witness :
    pb_finish finish_demo 0 = .ok (finish_demo_done, [format_line finish_demo_done ++ "\n"]) ∧
    pb_finish finish_demo_done 1 = .ok (finish_demo_done, []) :=
  c9_finish_idempotent finish_demo 0 1 (by norm_num [finish_demo, pb_init]) rfl

unseal Rat.add Rat.mul Rat.sub Rat.inv in
/-- C10 counterexample: on `ProgressBar(maxval=1)` the in-range sequence
`update(1)`, `update(0)` ends with `finished = true` but `currval = 0 ≠ 1 =
maxval`: after the bar finishes, a further update still assigns `currval`
but returns before recomputing `finished`, so "finished iff currval ==
maxval" fails. -/
theorem c10_counterexample :
    (pb_run (pb_init 1 [] 5 "") [.update (some 1) 0, .update (some 0) 1]).map
      (fun p => (p.1.currval, p.1.maxval, p.1.finished)) = .ok (0, 1, true) ∧
    (0 : ℚ) ≠ 1 := by
  constructor
  · decide
  · decide

/-- C10 (amended): over any sequence of `start`/`update`/`finish` operations
with in-range values on a freshly constructed bar with `maxval > 0`,
reaching `currval = maxval` forces `finished = true`, and the `finished`
flag is monotone: any single successful operation from any state preserves
`finished = true`.  The converse direction of the claimed "iff" is exactly
what the counterexample refutes: an update performed after completion
changes `currval` while `finished` stays true. -/
theorem c10_finished_monotone (maxval : ℚ) (ws : List Widget) (tw : ℤ) (title : String)
    (ops : List PBOp) (s' : PBState) (w : List String) (hm : 0 < maxval)
    (hrun : pb_run (pb_init maxval ws tw title) ops = .ok (s', w)) :
    (s'.currval = s'.maxval → s'.finished = true) ∧
      (∀ (t t' : PBState) (op : PBOp) (w' : List String),
        pb_step t op = .ok (t', w') → t.finished = true → t'.finished = true) := by
  constructor
  · have hInit : PBInv (pb_init maxval ws tw title) := by
      refine ⟨hm, le_refl 0, le_of_lt hm, ?_, ?_⟩
      · intro hcon
        exact absurd hcon.symm (ne_of_gt hm)
      · intro _
        norm_num [pb_init]
    exact (pb_run_inv _ ops s' w hInit hrun).2.2.2.1
  · intro t t' op w' hstep htf
    exact pb_step_mono t t' op w' hstep htf

unseal Rat.add Rat.mul Rat.sub Rat.inv in
/-- Witness for C10 (amended): one `update(1)` on `ProgressBar(maxval=1)`
reaches `invariant_demo_final`, where `currval = maxval` indeed implies
`finished`. -/
theorem c10_finished_monotone_witness :
    0 < (1:ℚ) ∧ (invariant_demo_final.currval = invariant_demo_final.maxval →
      invariant_demo_final.finished = true) :=
  ⟨by norm_num,
    (c10_finished_monotone 1 [] 5 "" [.update (some 1) 0] invariant_demo_final
      [format_line invariant_demo_final ++ "\n"] (by norm_num) (by rfl)).1⟩

end Progressbar
